import Mathlib

/-!
Verification of the CaptiveNut FreeCAD extension (CaptiveNut.py) against its
natural-language specification.  The Python source is shallowly embedded:
pure geometry synthesis becomes Lean functions over real numbers, the
document-mutating workflow becomes pure functions returning event traces, and
the global workflow registry becomes explicit state passing.
-/

/-- Points and vectors of the host document, as real triples. -/
abbrev Vec3 : Type := ℝ × ℝ × ℝ

/-! ## DXF entity model

`extract_centers_from_dxf` walks the object tree returned by the DXF importer.
Each node may carry a `Proxy` (with an optional `layer` attribute) and a
`Shape` whose edges have curves; only curves with a `Radius` attribute
(circles and arcs) contribute their `Center`.
-/

/-- A DXF entity proxy: `getattr(obj.Proxy, layer, None)` yields
`layer` when present, otherwise the Python `None`, modelled by `Option`. -/
structure DXFProxy where
  layer : Option String

/-- A curve of an edge of a DXF shape.  In FreeCAD, circle and arc curves have
both a `Radius` and a `Center` attribute; line curves have neither. -/
inductive DXFCurve where
  | circle (center : Vec3) (radius : ℝ)
  | arc (center : Vec3) (radius : ℝ)
  | line (a b : Vec3)

/-- Whether the curve has a `Radius` attribute (the test used by the source). -/
def DXFCurve.hasRadiusAttr : DXFCurve → Bool
  | .circle _ _ => true
  | .arc _ _ => true
  | .line _ _ => false

/-- The `Center` attribute of a curve, read only when `hasRadiusAttr` holds. -/
def DXFCurve.centerAttr : DXFCurve → Vec3
  | .circle c _ => c
  | .arc c _ => c
  | .line a _ => a

/-- A shape is a list of edges; each edge exposes its curve. -/
structure DXFShape where
  edges : List DXFCurve

/-- A node of the imported entity tree: an optional `Proxy`, an optional
`Shape`, and the `OutList` of children. -/
inductive DXFEntity where
  | mk (proxy : Option DXFProxy) (shape : Option DXFShape) (children : List DXFEntity)

/-- The `Proxy` attribute of an entity node. -/
def DXFEntity.proxy : DXFEntity → Option DXFProxy
  | .mk p _ _ => p

/-- The `Shape` attribute of an entity node. -/
def DXFEntity.shape : DXFEntity → Option DXFShape
  | .mk _ s _ => s

/-- The `OutList` children of an entity node. -/
def DXFEntity.children : DXFEntity → List DXFEntity
  | .mk _ _ c => c

/-- Centers of the circular edges of the (optional) shape of one node:
the inner loop `for edge in obj.Shape.Edges: if hasattr(edge.Curve, Radius):
results.append(edge.Curve.Center)`, guarded by `hasattr(obj, Shape)`. -/
def shapeCenters : Option DXFShape → List Vec3
  | none => []
  | some s => s.edges.filterMap fun c =>
      if c.hasRadiusAttr then some c.centerAttr else none

/-- The layer-filter guard of `traverseDXF`: a node is rejected when it has a
`Proxy`, the filter is not the sentinel "All", and
`getattr(obj.Proxy, layer, None) != layer_filter`. -/
def dxfExcluded (layer_filter : String) : Option DXFProxy → Bool
  | none => false
  | some p =>
      if layer_filter = "All" then false
      else decide (p.layer ≠ some layer_filter)

mutual

/-- The nested `traverseDXF` of `extract_centers_from_dxf`: on a rejected node it
returns the empty list at once (skipping the shape and the recursion over
children); otherwise it collects the circular-edge centers of this node and
recurses over `OutList`. -/
def traverseDXF (layer_filter : String) : DXFEntity → List Vec3
  | .mk proxy shape children =>
      if dxfExcluded layer_filter proxy then []
      else shapeCenters shape ++ traverseList layer_filter children

/-- The `results.extend(traverseDXF(child))` loop over the children. -/
def traverseList (layer_filter : String) : List DXFEntity → List Vec3
  | [] => []
  | e :: es => traverseDXF layer_filter e ++ traverseList layer_filter es

end

/-- Top entry of DXF extraction: `importDXF.open` either fails (modelled as
`none`, the `if not dxf_obj: return centers` branch together with the
exception handler that leaves `centers` empty) or yields the root entity. -/
def extract_centers_from_dxf (dxf_obj : Option DXFEntity) (layer_filter : String) :
    List Vec3 :=
  match dxf_obj with
  | none => []
  | some root => traverseDXF layer_filter root

/-! ## Vector arithmetic used by the placement engine -/

/-- Componentwise difference of two host vectors. -/
def vsub (a b : Vec3) : Vec3 := (a.1 - b.1, a.2.1 - b.2.1, a.2.2 - b.2.2)

/-- Negation of a host vector, the `normal * -1` of the source. -/
def vneg (a : Vec3) : Vec3 := (-a.1, -a.2.1, -a.2.2)

/-- The dot product `a.dot(b)` of host vectors. -/
def vdot (a b : Vec3) : ℝ := a.1 * b.1 + a.2.1 * b.2.1 + a.2.2 * b.2.2

/-! ## Normal selection in make_preview

The source reads `normal = face.normalAt(0, 0)`, then flips it when
`normal.dot(face_center - com) > 0`; the resulting vector becomes the target
of `App.Rotation(App.Vector(0, 0, 1), normal)`, i.e. the image of local +Z
under every placement rotation of the preview.
-/

/-- The normal actually used by `make_preview` for the placement rotations. -/
noncomputable def chooseNormal (normal face_center com : Vec3) : Vec3 :=
  if vdot normal (vsub face_center com) > 0 then vneg normal else normal

/-- Modelled from the spec (for comparison with `chooseNormal`): the outward
normal is the face normal when it points away from the center of mass of the
body, i.e. when `normal.dot(face_center - com) > 0`, and its negation
otherwise. -/
noncomputable def spec_outward_normal (normal face_center com : Vec3) : Vec3 :=
  if vdot normal (vsub face_center com) > 0 then normal else vneg normal

/-! ## Pattern generation

The Pattern Generator branch of `Activated` builds the centers list with
`ang = math.radians(i * angle_step)` and
`App.Vector(base.x + radius * cos(ang), base.y + radius * sin(ang), base.z)`.
-/

/-- Degrees to radians, the `math.radians` of the source. -/
noncomputable def radians (x : ℝ) : ℝ := x * Real.pi / 180

/-- The polar-pattern centers computed by the `for i in range(count)` loop. -/
noncomputable def polarPattern (base : Vec3) (radius angle_step : ℝ) (count : ℕ) :
    List Vec3 :=
  (List.range count).map fun i : ℕ =>
    (base.1 + radius * Real.cos (radians (i * angle_step)),
     base.2.1 + radius * Real.sin (radians (i * angle_step)),
     base.2.2)

/-! ## Sketch-circle extraction

`extract_centers_from_sketch` scans `sketch.Geometry`, keeps every geometry
carrying both a `Radius` and a `Center` attribute, builds
`App.Vector(geo.Center.x, geo.Center.y, 0)`, and finally maps each center
through the placement matrix of the sketch.
-/

/-- Sketcher geometry kinds relevant to the scan.  In FreeCAD, circles and
circular arcs have both `Radius` and `Center`; line segments have neither;
ellipses have a `Center` but no `Radius`. -/
inductive SketchGeo where
  | circle (cx cy radius : ℝ)
  | arcOfCircle (cx cy radius : ℝ)
  | lineSegment (x1 y1 x2 y2 : ℝ)
  | ellipse (cx cy major minor : ℝ)

/-- Whether the geometry has a `Radius` attribute. -/
def SketchGeo.hasRadiusAttr : SketchGeo → Bool
  | .circle _ _ _ => true
  | .arcOfCircle _ _ _ => true
  | .lineSegment _ _ _ _ => false
  | .ellipse _ _ _ _ => false

/-- Whether the geometry has a `Center` attribute. -/
def SketchGeo.hasCenterAttr : SketchGeo → Bool
  | .circle _ _ _ => true
  | .arcOfCircle _ _ _ => true
  | .lineSegment _ _ _ _ => false
  | .ellipse _ _ _ _ => true

/-- The `Center` attribute of a geometry, read only when present. -/
def SketchGeo.centerAttr : SketchGeo → ℝ × ℝ
  | .circle cx cy _ => (cx, cy)
  | .arcOfCircle cx cy _ => (cx, cy)
  | .lineSegment x1 y1 _ _ => (x1, y1)
  | .ellipse cx cy _ _ => (cx, cy)

/-- Spec-side notion of a circular primitive: a full circle or a circular
arc, of any radius (zero-radius degenerate circles included). -/
def SketchGeo.isCircularPrim : SketchGeo → Bool
  | .circle _ _ _ => true
  | .arcOfCircle _ _ _ => true
  | .lineSegment _ _ _ _ => false
  | .ellipse _ _ _ _ => false

/-- A sketch: its `Geometry` list and the affine action of
`sketch.Placement.toMatrix()` on host vectors. -/
structure Sketch where
  geometry : List SketchGeo
  placementMat : Vec3 → Vec3

/-- The source `extract_centers_from_sketch`: collect the local centers of
all geometries having `Radius` and `Center`, return `[]` when none, else
transform each through the placement matrix. -/
def extract_centers_from_sketch (sk : Sketch) : List Vec3 :=
  let centers := sk.geometry.filterMap fun g =>
    if g.hasRadiusAttr && g.hasCenterAttr then
      some (g.centerAttr.1, g.centerAttr.2, (0:ℝ))
    else none
  if centers.isEmpty then []
  else centers.map sk.placementMat

/-! ## Solid synthesis for the boolean-cut path

`Part.makeCylinder(r, h, pos, dir)` and `Part.makeCone(r1, r2, h, pos, dir)`
are external constructors; their argument tuples are recorded verbatim, and
`fuse` records the boolean union of the source.
-/

/-- Argument record of a `Part.makeCylinder` call. -/
structure CylinderArgs where
  radius : ℝ
  height : ℝ
  pos : Vec3
  dir : Vec3

/-- Argument record of a `Part.makeCone` call (base radius, top radius). -/
structure ConeArgs where
  radius1 : ℝ
  radius2 : ℝ
  height : ℝ
  pos : Vec3
  dir : Vec3

/-- A solid built by the preview path: primitive cylinders and cones, and
their fusions. -/
inductive SolidShape where
  | cylinder (c : CylinderArgs)
  | cone (c : ConeArgs)
  | fuse (a b : SolidShape)

/-- The direction `App.Vector(0, 0, -1)` of every extrusion of the source. -/
def negZ : Vec3 := ((0:ℝ), (0:ℝ), (-1:ℝ))

/-- The origin `App.Vector(0, 0, 0)`. -/
def vzero : Vec3 := ((0:ℝ), (0:ℝ), (0:ℝ))

/-- The source `make_bolt_hole`: a plain cylinder of radius
`bolt_clearance / 2` and the given depth, extruded toward local -Z. -/
noncomputable def make_bolt_hole (bolt_clearance depth : ℝ) : SolidShape :=
  .cylinder ⟨bolt_clearance / 2, depth, vzero, negZ⟩

/-- The source `make_countersunk_hole`: straight cylinder of the full depth
fused with a cone frustum whose head diameter is twice the clearance diameter
and whose height follows the half-included-angle tangent formula. -/
noncomputable def make_countersunk_hole (bolt_clearance depth angle : ℝ) : SolidShape :=
  let d_clear := bolt_clearance
  let d_head := d_clear * 2
  let angle_rad := radians (angle / 2)
  let head_depth := (d_head - d_clear) / (2 * Real.tan angle_rad)
  .fuse (.cylinder ⟨d_clear / 2, depth, vzero, negZ⟩)
        (.cone ⟨d_head / 2, d_clear / 2, head_depth, vzero, negZ⟩)

/-- The head diameter of a countersunk hole solid: twice the base radius of
its cone frustum (zero for shapes that are not such a fusion). -/
noncomputable def headDiameter : SolidShape → ℝ
  | .fuse _ (.cone c) => 2 * c.radius1
  | _ => 0

/-! ## PartDesign bolt-hole dispatch

In `create_partdesign_pocket` the bolt-hole feature type is selected from the
dialog string: Through All sets `Type = 1`; Countersunk pops a warning box
("PartDesign Pockets do not support countersinks. Using blind hole.") and
falls back to `Type = 0` with `Length = hole_depth`; any other value is a
blind hole of the requested depth.
-/

/-- PartDesign pocket type: `Type = 0` is Blind, `Type = 1` is ThroughAll. -/
inductive PocketFeatType where
  | blind
  | throughAll
deriving DecidableEq

/-- The bolt-hole feature parameters set by `create_partdesign_pocket`:
the pocket type and the `Length` property (unset for ThroughAll). -/
structure BoltHoleFeature where
  ftype : PocketFeatType
  length : Option ℝ

/-- The hole-type dispatch of `create_partdesign_pocket`: returns the list of
user-visible warnings raised and the feature parameters chosen. -/
def boltHoleOf (hole_type : String) (hole_depth : ℝ) :
    List String × BoltHoleFeature :=
  if hole_type = "Through All" then
    ([], ⟨.throughAll, none⟩)
  else if hole_type = "Countersunk" then
    (["Countersink Not Supported"], ⟨.blind, some hole_depth⟩)
  else
    ([], ⟨.blind, some hole_depth⟩)

/-! ## Workflow commit traces

The document-mutating tail of `Activated` (after the centers list is known)
and of `on_sketch_finished` are embedded as pure functions from the centers
and the outcomes of the external document API to a list of events, in program
order.  Events that add objects to the document are the mutations.
-/

/-- Observable events of the commit phase. -/
inductive Ev where
  | warnNoCenters
  | question
  | featureCreated (i : ℕ) (center : Vec3)
  | failLog (displayIndex : ℕ) (msg : String)
  | infoMsg (msg : String)
  | previewCreated
  | cutCreated
  | boolFailed (msg : String)
deriving Inhabited

/-- Whether an event adds an object to the document. -/
def Ev.isMutation : Ev → Bool
  | .featureCreated _ _ => true
  | .previewCreated => true
  | .cutCreated => true
  | _ => false

/-- The per-point loop `for i, center in enumerate(centers)` with its inner
try/except: a failing `create_partdesign_pocket` call is logged as
`Failed pocket #(i+1)` and the loop continues with the next point. -/
def commitBody (centers : List Vec3) (outcome : ℕ → Vec3 → Except String Unit) :
    List Ev :=
  centers.enum.map fun p =>
    match outcome p.1 p.2 with
    | .ok _ => .featureCreated p.1 p.2
    | .error e => .failLog (p.1 + 1) e

/-- The tail of `Activated` after `centers` is computed (source lines
356-412): the empty-centers guard, then the PartDesign branch with its
confirmation and per-point loop, or the boolean-preview branch with its
confirmation and single cut. -/
def activatedAfterCenters (centers : List Vec3) (is_partdesign auto_boolean yes : Bool)
    (outcome : ℕ → Vec3 → Except String Unit) (cutOutcome : Except String Unit) :
    List Ev :=
  if centers.isEmpty then [.warnNoCenters]
  else if is_partdesign then
    if auto_boolean then
      .question ::
        (if yes then commitBody centers outcome ++ [.infoMsg "pockets added to Body"]
         else [])
    else [.infoMsg "ready to create pockets"]
  else
    .previewCreated ::
      (if auto_boolean then
        .question ::
          (if yes then
            match cutOutcome with
            | .ok _ => [.cutCreated, .infoMsg "inserts placed and cut"]
            | .error e => [.boolFailed e]
           else [])
       else [.infoMsg "preview created"])

/-- The body of `on_sketch_finished` (source lines 670-725): the
no-circles guard, then the same PartDesign / boolean split; the boolean cut
of this path has no local handler, so its success is taken as given here (a
failure would only reach the outer logging handler). -/
def onSketchFinishedEvents (centers : List Vec3) (is_partdesign auto_boolean yes : Bool)
    (outcome : ℕ → Vec3 → Except String Unit) : List Ev :=
  if centers.isEmpty then [.warnNoCenters]
  else if is_partdesign then
    if auto_boolean then
      .question ::
        (if yes then commitBody centers outcome ++ [.infoMsg "pockets added"]
         else [])
    else [.infoMsg "sketch processed"]
  else
    .previewCreated ::
      (if auto_boolean then
        .question :: (if yes then [.cutCreated, .infoMsg "boolean cut performed"] else [])
       else [.infoMsg "preview created from sketch"])

/-! ## The global workflow registry

`CaptiveNutSketchWorkflow.__init__` appends `self` to `_ACTIVE_WORKFLOWS`
after starting the polling timer; `cleanup` removes `self` from the list
(guarded by a membership test, since the Python `list.remove` raises
`ValueError` on a missing element) and stops the timer when it is active.
Workflow instances are identified by a numeric id; the timer of each instance
is `none` when not yet created, `some true` when running, `some false` when
stopped.
-/

/-- The ambient state touched by a sketch workflow: the global
`_ACTIVE_WORKFLOWS` list and the per-instance timer. -/
structure WorkflowState where
  registry : List ℕ
  timer : ℕ → Option Bool

/-- The Python `list.remove`: drop the first occurrence, `ValueError` when
the element is absent. -/
def listRemove (x : ℕ) : List ℕ → Except String (List ℕ)
  | [] => .error "ValueError"
  | y :: ys =>
      if y = x then .ok ys
      else (listRemove x ys).map fun r => y :: r

/-- The registration performed by `__init__`: the timer is created and
started by `setup_sketch`, then the instance is appended to the registry. -/
def initWorkflow (w : ℕ) (s : WorkflowState) : WorkflowState :=
  { registry := s.registry ++ [w]
    timer := fun x => if x = w then some true else s.timer x }

/-- The source `cleanup`: remove the instance from the registry when present
(the guard makes the `list.remove` call safe), then stop its timer when the
timer exists and is active. -/
def cleanup (w : ℕ) (s : WorkflowState) : Except String WorkflowState := do
  let reg ←
    if s.registry.contains w then listRemove w s.registry
    else .ok s.registry
  let t :=
    match s.timer w with
    | some true => some false
    | other => other
  .ok { registry := reg, timer := fun x => if x = w then t else s.timer x }

/-! ## Helper lemmas about the DXF traversal -/

/-- Unfolding of `traverseDXF` on a constructed node. -/
theorem traverse_mk (layer_filter : String) (p : Option DXFProxy)
    (s : Option DXFShape) (c : List DXFEntity) :
    traverseDXF layer_filter (.mk p s c) =
      if dxfExcluded layer_filter p then []
      else shapeCenters s ++ traverseList layer_filter c := rfl

/-- Unfolding of `traverseList` on a cons cell. -/
theorem traverseList_cons (layer_filter : String) (e : DXFEntity)
    (es : List DXFEntity) :
    traverseList layer_filter (e :: es) =
      traverseDXF layer_filter e ++ traverseList layer_filter es := rfl

/-- Unfolding of `traverseList` on the empty list. -/
theorem traverseList_nil (layer_filter : String) :
    traverseList layer_filter [] = [] := rfl

/-- The traversal of an appended child list splits into two traversals. -/
theorem traverseList_append (layer_filter : String) (l1 l2 : List DXFEntity) :
    traverseList layer_filter (l1 ++ l2) =
      traverseList layer_filter l1 ++ traverseList layer_filter l2 := by
  induction l1 with
  | nil => simp [traverseList_nil]
  | cons e es ih => simp [traverseList_cons, ih]

/-- A node whose proxy fails the layer filter yields nothing, its subtree
included. -/
theorem traverse_excluded (layer_filter : String) (hA : layer_filter ≠ "All")
    (p : DXFProxy) (hl : p.layer ≠ some layer_filter)
    (s : Option DXFShape) (c : List DXFEntity) :
    traverseDXF layer_filter (.mk (some p) s c) = [] := by
  rw [traverse_mk]
  have : dxfExcluded layer_filter (some p) = true := by
    simp [dxfExcluded, hA, hl]
  simp [this]

/-- A list of nodes each traversing to nothing contributes nothing. -/
theorem traverseList_eq_nil (layer_filter : String) (l : List DXFEntity)
    (h : ∀ e ∈ l, traverseDXF layer_filter e = []) :
    traverseList layer_filter l = [] := by
  induction l with
  | nil => exact traverseList_nil layer_filter
  | cons e es ih =>
      rw [traverseList_cons, h e (by simp), ih fun x hx => h x (by simp [hx])]
      rfl

/-- C1: refuted as stated.  On the concrete tree whose root carries no proxy,
whose only child is tagged with layer "other", and whose grandchild is tagged
with the matching layer "holes" and holds one circle centered at (1, 2, 3),
the extraction with filter "holes" returns nothing — the mismatch at the
middle node prunes its entire subtree — although the grandchild on its own
would contribute its center, so the children of a mismatched node are not
visited, contrary to the claim. -/
theorem dxf_filter_counterexample :
    extract_centers_from_dxf
      (some (.mk none none
        [.mk (some ⟨some "other"⟩) none
          [.mk (some ⟨some "holes"⟩) (some ⟨[.circle ((1:ℝ), 2, 3) 4]⟩) []]]))
      "holes" = [] ∧
    traverseDXF "holes"
      (.mk (some ⟨some "holes"⟩) (some ⟨[.circle ((1:ℝ), 2, 3) 4]⟩) []) =
      [((1:ℝ), 2, 3)] := by
  exact ⟨rfl, rfl⟩

/-- C1 (amended): with a specific layer filter, a mismatch at a node carrying
a Proxy prunes that node together with its entire subtree — its children are
not visited even when their own tags match; consequently, on a tree whose
root carries no Proxy and no shape, a leaf child tagged with the matching
layer contributes exactly its own circle centers while every sibling whose
Proxy tag mismatches (or is absent) contributes nothing. -/
theorem dxf_filter_prunes_subtree (layer_filter : String)
    (hA : layer_filter ≠ "All") (p : DXFProxy)
    (hl : p.layer ≠ some layer_filter) (s : Option DXFShape)
    (c : List DXFEntity) (sh : DXFShape) (pre post : List DXFEntity)
    (hsib : ∀ e ∈ pre ++ post,
      ∃ q, DXFEntity.proxy e = some q ∧ q.layer ≠ some layer_filter) :
    traverseDXF layer_filter (.mk (some p) s c) = [] ∧
    traverseDXF layer_filter
      (.mk none none
        (pre ++ .mk (some ⟨some layer_filter⟩) (some sh) [] :: post)) =
      shapeCenters (some sh) := by
  have hkill : ∀ e ∈ pre ++ post, traverseDXF layer_filter e = [] := by
    intro e he
    obtain ⟨q, hq, hql⟩ := hsib e he
    obtain ⟨ep, es, ec⟩ := e
    simp [DXFEntity.proxy] at hq
    subst hq
    exact traverse_excluded layer_filter hA q hql es ec
  refine ⟨traverse_excluded layer_filter hA p hl s c, ?_⟩
  rw [traverse_mk]
  have hroot : dxfExcluded layer_filter none = false := rfl
  rw [hroot]
  have hleaf : traverseDXF layer_filter
      (.mk (some ⟨some layer_filter⟩) (some sh) []) = shapeCenters (some sh) := by
    rw [traverse_mk]
    have : dxfExcluded layer_filter (some ⟨some layer_filter⟩) = false := by
      simp [dxfExcluded]
    simp [this, traverseList_nil]
  have hpre : traverseList layer_filter pre = [] :=
    traverseList_eq_nil _ _ fun e he => hkill e (by simp [he])
  have hpost : traverseList layer_filter post = [] :=
    traverseList_eq_nil _ _ fun e he => hkill e (by simp [he])
  rw [show (DXFEntity.mk (some ⟨some layer_filter⟩) (some sh) [] :: post) =
        [DXFEntity.mk (some ⟨some layer_filter⟩) (some sh) []] ++ post from rfl,
      traverseList_append, traverseList_append, hpre, hpost, traverseList_cons,
      traverseList_nil, hleaf]
  simp [shapeCenters]

/-- C1 amended, witnessed on a concrete tree: root without proxy, one sibling
with a mismatching tag, one matching leaf holding a circle at (5, 6, 7). -/
theorem dxf_filter_prunes_subtree_witness :
    traverseDXF "holes"
      (.mk none none
        ([DXFEntity.mk (some ⟨some "other"⟩) none []] ++
          .mk (some ⟨some "holes"⟩) (some ⟨[.circle ((5:ℝ), 6, 7) 1]⟩) [] :: [])) =
      shapeCenters (some ⟨[.circle ((5:ℝ), 6, 7) 1]⟩) :=
  (dxf_filter_prunes_subtree "holes" (by decide) ⟨some "other"⟩ (by decide)
    none [] ⟨[.circle ((5:ℝ), 6, 7) 1]⟩
    [DXFEntity.mk (some ⟨some "other"⟩) none []] []
    (by
      intro e he
      simp at he
      subst he
      exact ⟨⟨some "other"⟩, rfl, by decide⟩)).2

/-- C9: with a specific (non-"All") layer filter, a node lacking a Proxy is
never filtered — its own circular-edge centers are collected and its children
traversed; a node whose Proxy tag differs from the filter (absent tags
included, since they compare unequal to the filter) is excluded together with
its entire subtree; and a node whose Proxy tag equals the filter is not
excluded. -/
theorem dxf_no_proxy_never_filtered (layer_filter : String)
    (hA : layer_filter ≠ "All") :
    (∀ (s : Option DXFShape) (c : List DXFEntity),
      traverseDXF layer_filter (.mk none s c) =
        shapeCenters s ++ traverseList layer_filter c) ∧
    (∀ (p : DXFProxy) (s : Option DXFShape) (c : List DXFEntity),
      p.layer ≠ some layer_filter →
        traverseDXF layer_filter (.mk (some p) s c) = []) ∧
    (∀ (p : DXFProxy) (s : Option DXFShape) (c : List DXFEntity),
      p.layer = some layer_filter →
        traverseDXF layer_filter (.mk (some p) s c) =
          shapeCenters s ++ traverseList layer_filter c) := by
  refine ⟨?_, ?_, ?_⟩
  · intro s c
    rw [traverse_mk]
    rfl
  · intro p s c hl
    exact traverse_excluded layer_filter hA p hl s c
  · intro p s c hl
    rw [traverse_mk]
    have : dxfExcluded layer_filter (some p) = false := by
      simp [dxfExcluded, hl]
    simp [this]

/-- C9 witnessed: with filter "holes", a node tagged "other" is pruned with
its whole subtree even though its child holds a circle. -/
theorem dxf_no_proxy_never_filtered_witness :
    traverseDXF "holes"
      (.mk (some ⟨some "other"⟩) (some ⟨[.circle ((9:ℝ), 9, 9) 2]⟩)
        [.mk none (some ⟨[.circle ((8:ℝ), 8, 8) 2]⟩) []]) = [] :=
  (dxf_no_proxy_never_filtered "holes" (by decide)).2.1
    ⟨some "other"⟩ (some ⟨[.circle ((9:ℝ), 9, 9) 2]⟩)
    [.mk none (some ⟨[.circle ((8:ℝ), 8, 8) 2]⟩) []] (by decide)

/-- C2: the code contradicts the claim.  At face normal (0, 0, 1), face
centroid (0, 0, 10) and body centroid (0, 0, 0) the dot product is 10 > 0, so
the face normal already points away from the center of mass; the claim (and
the spec, whose stated purpose is that pockets cut into the solid) keeps it,
but `make_preview` negates it, so the rotation maps local +Z to the inward
normal and the solids, extruded toward local -Z, extend away from the body. -/
theorem preview_normal_sign_bug :
    chooseNormal ((0:ℝ), 0, 1) ((0:ℝ), 0, 10) ((0:ℝ), 0, 0) = ((0:ℝ), 0, -1) ∧
    spec_outward_normal ((0:ℝ), 0, 1) ((0:ℝ), 0, 10) ((0:ℝ), 0, 0) = ((0:ℝ), 0, 1) ∧
    chooseNormal ((0:ℝ), 0, 1) ((0:ℝ), 0, 10) ((0:ℝ), 0, 0) ≠
      spec_outward_normal ((0:ℝ), 0, 1) ((0:ℝ), 0, 10) ((0:ℝ), 0, 0) ∧
    vdot (chooseNormal ((0:ℝ), 0, 1) ((0:ℝ), 0, 10) ((0:ℝ), 0, 0))
      (vsub ((0:ℝ), 0, 10) ((0:ℝ), 0, 0)) < 0 := by
  have hc : chooseNormal ((0:ℝ), 0, 1) ((0:ℝ), 0, 10) ((0:ℝ), 0, 0) = ((0:ℝ), 0, -1) := by
    rw [chooseNormal, if_pos (by norm_num [vdot, vsub])]
    norm_num [vneg]
  have hs : spec_outward_normal ((0:ℝ), 0, 1) ((0:ℝ), 0, 10) ((0:ℝ), 0, 0) = ((0:ℝ), 0, 1) := by
    rw [spec_outward_normal, if_pos (by norm_num [vdot, vsub])]
  refine ⟨hc, hs, ?_, ?_⟩
  · rw [hc, hs]
    intro h
    have := congrArg (fun v : Vec3 => v.2.2) h
    norm_num at this
  · rw [hc]
    norm_num [vdot, vsub]

/-- C3: when the chosen point source yields zero placement points, both the
direct path of `Activated` and the sketch path of `on_sketch_finished` emit
exactly the no-placement-points warning and nothing else — in particular no
sketch, feature, preview or cut events; and extracting centers from an empty
sketch yields the empty list. -/
theorem no_placement_points_aborts (is_partdesign auto_boolean yes : Bool)
    (outcome : ℕ → Vec3 → Except String Unit) (cutOutcome : Except String Unit)
    (pm : Vec3 → Vec3) :
    extract_centers_from_sketch ⟨[], pm⟩ = [] ∧
    activatedAfterCenters [] is_partdesign auto_boolean yes outcome cutOutcome =
      [.warnNoCenters] ∧
    onSketchFinishedEvents [] is_partdesign auto_boolean yes outcome =
      [.warnNoCenters] ∧
    (activatedAfterCenters [] is_partdesign auto_boolean yes outcome
      cutOutcome).all (fun e => !e.isMutation) = true ∧
    (onSketchFinishedEvents [] is_partdesign auto_boolean yes outcome).all
      (fun e => !e.isMutation) = true := by
  refine ⟨rfl, rfl, rfl, rfl, rfl⟩

/-- C4: the body-path commit loop over n placement points processes each
point independently: the event list has one entry per point, the entry of a
failing point is a log carrying its (1-based) display index and the error
message, and the entry of a succeeding point is its feature creation — so no
failure truncates the loop. -/
theorem commit_attempts_every_point (centers : List Vec3)
    (outcome : ℕ → Vec3 → Except String Unit) :
    (commitBody centers outcome).length = centers.length ∧
    ∀ i, i < centers.length →
      (commitBody centers outcome).getD i default =
        match outcome i (centers.getD i vzero) with
        | .ok _ => Ev.featureCreated i (centers.getD i vzero)
        | .error e => Ev.failLog (i + 1) e := by
  constructor
  · simp [commitBody]
  · intro i hi
    have hlen : i < (commitBody centers outcome).length := by
      simpa [commitBody] using hi
    rw [List.getD_eq_getElem _ _ hlen, List.getD_eq_getElem _ _ hi]
    simp [commitBody]

/-- C4 witnessed: on two points with the first feature creation failing,
entry 0 of the commit trace is the failure log with display index 1, and
entry 1 is still the feature creation of the second point. -/
theorem commit_attempts_every_point_witness :
    (commitBody [vzero, ((1:ℝ), 1, 1)]
      (fun i _ => if i = 0 then .error "boom" else .ok ())).getD 0 default =
      Ev.failLog 1 "boom" ∧
    (commitBody [vzero, ((1:ℝ), 1, 1)]
      (fun i _ => if i = 0 then .error "boom" else .ok ())).getD 1 default =
      Ev.featureCreated 1 ((1:ℝ), 1, 1) :=
  ⟨(commit_attempts_every_point [vzero, ((1:ℝ), 1, 1)]
      (fun i _ => if i = 0 then .error "boom" else .ok ())).2 0 (by decide),
   (commit_attempts_every_point [vzero, ((1:ℝ), 1, 1)]
      (fun i _ => if i = 0 then .error "boom" else .ok ())).2 1 (by decide)⟩

/-- C5: on the PartDesign path a Countersunk request produces a Blind hole of
the requested hole depth together with a user-visible warning (the warning
list is nonempty, never a silent substitution), while Through All and Blind
requests are honoured as requested with no warning. -/
theorem countersink_degrades_to_blind_with_warning (hole_depth : ℝ) :
    boltHoleOf "Countersunk" hole_depth =
      (["Countersink Not Supported"], ⟨.blind, some hole_depth⟩) ∧
    (boltHoleOf "Countersunk" hole_depth).1 ≠ [] ∧
    boltHoleOf "Through All" hole_depth = ([], ⟨.throughAll, none⟩) ∧
    boltHoleOf "Blind Hole" hole_depth = ([], ⟨.blind, some hole_depth⟩) := by
  exact ⟨rfl, fun h => List.cons_ne_nil _ _ h, rfl, rfl⟩

/-- C6: for any bolt clearance, countersink included angle and hole depth
d > 0, the countersunk hole is the fusion of the straight cylinder of radius
bolt_clearance / 2 and full height d directed into local -Z with the cone
frustum of base radius bolt_clearance, top radius bolt_clearance / 2 and
height (2 * bolt_clearance - bolt_clearance) / (2 * tan(angle / 2 in
radians)), also directed into local -Z; the head diameter is exactly twice
the bolt clearance, independently of the angle. -/
theorem countersunk_hole_geometry (bolt_clearance depth angle : ℝ)
    (hd : 0 < depth) :
    make_countersunk_hole bolt_clearance depth angle =
      .fuse (.cylinder ⟨bolt_clearance / 2, depth, vzero, negZ⟩)
            (.cone ⟨bolt_clearance, bolt_clearance / 2,
                    (2 * bolt_clearance - bolt_clearance) /
                      (2 * Real.tan (radians (angle / 2))),
                    vzero, negZ⟩) ∧
    headDiameter (make_countersunk_hole bolt_clearance depth angle) =
      2 * bolt_clearance := by
  have h1 : make_countersunk_hole bolt_clearance depth angle =
      .fuse (.cylinder ⟨bolt_clearance / 2, depth, vzero, negZ⟩)
            (.cone ⟨bolt_clearance, bolt_clearance / 2,
                    (2 * bolt_clearance - bolt_clearance) /
                      (2 * Real.tan (radians (angle / 2))),
                    vzero, negZ⟩) := by
    have e1 : bolt_clearance * 2 / 2 = bolt_clearance := by ring
    have e2 : bolt_clearance * 2 - bolt_clearance =
        2 * bolt_clearance - bolt_clearance := by ring
    simp only [make_countersunk_hole]
    rw [e1, e2]
  refine ⟨h1, ?_⟩
  rw [h1]
  unfold headDiameter
  ring

/-- C6 witnessed at bolt clearance 3.5, depth 1, angle 90: the depth
hypothesis holds and the head diameter evaluates to 2 * 3.5. -/
theorem countersunk_hole_geometry_witness :
    headDiameter (make_countersunk_hole 3.5 1 90) = 2 * 3.5 :=
  (countersunk_hole_geometry 3.5 1 90 one_pos).2

/-- C7: for count n >= 1 the polar pattern has exactly n points, point i is
base + (radius * cos(radians(i * step)), radius * sin(radians(i * step)), 0),
point 0 is base + (radius, 0, 0) (no initial phase), and the concrete
instance base = (0,0,0), radius = 30, step = 90 degrees, n = 4 yields exactly
(30,0,0), (0,30,0), (-30,0,0), (0,-30,0). -/
theorem polar_pattern_points (base : Vec3) (radius angle_step : ℝ)
    (count : ℕ) (hc : 1 ≤ count) :
    (polarPattern base radius angle_step count).length = count ∧
    (∀ i : ℕ, i < count →
      (polarPattern base radius angle_step count).getD i vzero =
        (base.1 + radius * Real.cos (radians (i * angle_step)),
         base.2.1 + radius * Real.sin (radians (i * angle_step)),
         base.2.2)) ∧
    (polarPattern base radius angle_step count).getD 0 vzero =
      (base.1 + radius, base.2.1, base.2.2) ∧
    polarPattern ((0:ℝ), 0, 0) 30 90 4 =
      [((30:ℝ), 0, 0), ((0:ℝ), 30, 0), ((-30:ℝ), 0, 0), ((0:ℝ), -30, 0)] := by
  have hlen : (polarPattern base radius angle_step count).length = count := by
    simp only [polarPattern, List.length_map, List.length_range]
  have hget : ∀ i : ℕ, i < count →
      (polarPattern base radius angle_step count).getD i vzero =
        (base.1 + radius * Real.cos (radians (i * angle_step)),
         base.2.1 + radius * Real.sin (radians (i * angle_step)),
         base.2.2) := by
    intro i hi
    have hl : i < (polarPattern base radius angle_step count).length := by
      rw [hlen]; exact hi
    rw [List.getD_eq_getElem _ _ hl]
    simp only [polarPattern, List.getElem_map, List.getElem_range]
  refine ⟨hlen, hget, ?_, ?_⟩
  · rw [hget 0 hc]
    norm_num [radians]
  · have h0 : radians 0 = 0 := by simp [radians]
    have h90 : radians 90 = Real.pi / 2 := by unfold radians; ring
    have h180 : radians 180 = Real.pi := by unfold radians; ring
    have h270 : radians 270 = Real.pi + Real.pi / 2 := by unfold radians; ring
    have hc270 : Real.cos (Real.pi + Real.pi / 2) = 0 := by
      rw [Real.cos_add]; simp
    have hs270 : Real.sin (Real.pi + Real.pi / 2) = -1 := by
      rw [Real.sin_add]; simp
    simp [polarPattern, List.range_succ]
    norm_num [h0, h90, h180, h270, hc270, hs270, Real.cos_pi_div_two,
      Real.sin_pi_div_two, Real.cos_pi, Real.sin_pi]

/-- C7 witnessed at count 4: the pattern of the concrete instance has length
4 and equals the four axis points. -/
theorem polar_pattern_points_witness :
    (polarPattern ((0:ℝ), 0, 0) 30 90 4).length = 4 ∧
    polarPattern ((0:ℝ), 0, 0) 30 90 4 =
      [((30:ℝ), 0, 0), ((0:ℝ), 30, 0), ((-30:ℝ), 0, 0), ((0:ℝ), -30, 0)] :=
  ⟨(polar_pattern_points ((0:ℝ), 0, 0) 30 90 4 (by decide)).1,
   (polar_pattern_points ((0:ℝ), 0, 0) 30 90 4 (by decide)).2.2.2⟩

/-- The centers list built by the geometry scan equals the mapped filter of
circular primitives. -/
theorem sketch_centers_list_eq (geos : List SketchGeo) :
    (geos.filterMap fun g =>
      if g.hasRadiusAttr && g.hasCenterAttr then
        some (g.centerAttr.1, g.centerAttr.2, (0:ℝ))
      else none) =
    (geos.filter fun g => g.isCircularPrim).map
      (fun g => (g.centerAttr.1, g.centerAttr.2, (0:ℝ))) := by
  induction geos with
  | nil => rfl
  | cons g gs ih =>
      cases g
      · exact congrArg (List.cons _) ih
      · exact congrArg (List.cons _) ih
      · exact ih
      · exact ih

/-- C8: sketch extraction returns exactly the placement-transformed centers
of the circular primitives of the sketch — every circle and circular arc
contributes its center (radius unexamined, so zero-radius circles included,
as the second conjunct shows concretely) and non-circular primitives
contribute nothing. -/
theorem sketch_centers_characterization (geos : List SketchGeo)
    (pm : Vec3 → Vec3) :
    extract_centers_from_sketch ⟨geos, pm⟩ =
      (geos.filter fun g => g.isCircularPrim).map
        (fun g => pm (g.centerAttr.1, g.centerAttr.2, 0)) ∧
    ∀ cx cy : ℝ,
      extract_centers_from_sketch ⟨[.circle cx cy 0], pm⟩ = [pm (cx, cy, 0)] := by
  constructor
  · show (let centers := _; if List.isEmpty centers then [] else centers.map pm) = _
    simp only [extract_centers_from_sketch, sketch_centers_list_eq]
    split
    · next hemp =>
        rw [List.isEmpty_iff] at hemp
        rw [List.map_eq_nil_iff.mp hemp]
        rfl
    · rw [List.map_map]
      rfl
  · intro cx cy
    rfl

/-- The Python `list.remove` on a list ending in its argument, the argument
absent earlier: it succeeds and removes exactly that last element. -/
theorem listRemove_append_self (w : ℕ) (l : List ℕ) (hw : w ∉ l) :
    listRemove w (l ++ [w]) = .ok l := by
  induction l with
  | nil => simp [listRemove]
  | cons y ys ih =>
      have hy : y ≠ w := by rintro rfl; exact hw (by simp)
      have hys : w ∉ ys := fun h => hw (by simp [h])
      simp [listRemove, hy, ih hys, Except.map]

/-- Evaluation of `cleanup` when the instance is registered and removal
succeeds. -/
theorem cleanup_mem (w : ℕ) (s : WorkflowState)
    (hmem : s.registry.contains w = true) (reg : List ℕ)
    (hrem : listRemove w s.registry = .ok reg) :
    cleanup w s = .ok ⟨reg,
      fun x => if x = w then
          (match s.timer w with
           | some true => some false
           | other => other)
        else s.timer x⟩ := by
  rw [cleanup, if_pos hmem, hrem]
  rfl

/-- Evaluation of `cleanup` when the instance is not registered: the guard
skips the removal, so no `ValueError` is raised. -/
theorem cleanup_not_mem (w : ℕ) (s : WorkflowState)
    (hmem : s.registry.contains w = false) :
    cleanup w s = .ok ⟨s.registry,
      fun x => if x = w then
          (match s.timer w with
           | some true => some false
           | other => other)
        else s.timer x⟩ := by
  rw [cleanup, if_neg (by rw [hmem]; exact Bool.false_ne_true)]
  rfl

/-- C10: a fresh workflow instance is appended to the registry exactly once
at construction; `cleanup` then succeeds, leaving the instance absent from
the registry with its polling timer stopped; and a second `cleanup` on the
resulting state again succeeds and returns that state unchanged — the guard
prevents any `ValueError` from the underlying `list.remove`. -/
theorem workflow_cleanup_idempotent (w : ℕ) (s : WorkflowState)
    (hw : w ∉ s.registry) :
    ((initWorkflow w s).registry.count w = 1) ∧
    ∃ s1, cleanup w (initWorkflow w s) = .ok s1 ∧
      w ∉ s1.registry ∧ s1.timer w = some false ∧
      cleanup w s1 = .ok s1 := by
  have hcount : (initWorkflow w s).registry.count w = 1 := by
    simp [initWorkflow, List.count_append, List.count_eq_zero.mpr hw]
  have hmem : (initWorkflow w s).registry.contains w = true := by
    simp [initWorkflow]
  have hrem : listRemove w (initWorkflow w s).registry = .ok s.registry := by
    rw [show (initWorkflow w s).registry = s.registry ++ [w] from rfl]
    exact listRemove_append_self w s.registry hw
  have hclean := cleanup_mem w (initWorkflow w s) hmem s.registry hrem
  have htimer : (initWorkflow w s).timer w = some true := by simp [initWorkflow]
  rw [htimer] at hclean
  set s1 : WorkflowState := ⟨s.registry,
    fun x => if x = w then some false else (initWorkflow w s).timer x⟩ with hs1
  have h1mem : s1.registry.contains w = false := by
    simp [hs1]
    exact hw
  have h1timer : s1.timer w = some false := by simp [hs1]
  have hclean2 := cleanup_not_mem w s1 h1mem
  rw [h1timer] at hclean2
  have hfun : (fun x => if x = w then (some false : Option Bool) else s1.timer x)
      = s1.timer := by
    funext x
    by_cases hx : x = w
    · subst hx; simp [hs1]
    · simp [hx]
  refine ⟨hcount, s1, hclean, hw, h1timer, ?_⟩
  rw [hclean2]
  exact congrArg Except.ok (by rw [WorkflowState.mk.injEq]; exact ⟨rfl, hfun⟩)

/-- C10 witnessed on the empty initial state with instance id 0: the
instance is registered exactly once by construction. -/
theorem workflow_cleanup_idempotent_witness :
    ((initWorkflow 0 ⟨[], fun _ => none⟩).registry.count 0 = 1) ∧
    ∃ s1, cleanup 0 (initWorkflow 0 ⟨[], fun _ => none⟩) = .ok s1 ∧
      0 ∉ s1.registry ∧ s1.timer 0 = some false ∧
      cleanup 0 s1 = .ok s1 :=
  workflow_cleanup_idempotent 0 ⟨[], fun _ => none⟩ (by simp)
